import Mathlib

/-!
Shallow embedding of the `bgs` package (src/bgs/bgs.go) of the indigo
federation relay, together with proofs about its ingestion router
(`handleFedEvent`), identity resolution (`createExternalUser`) and the
HTTP handlers (`handleAddTarget`, `EventsHandler`).

External collaborators (gorm database, PLC directory client, xrpc peer
calls, repo merge engine, event manager, websocket connection) are
modelled as explicit environments of Lean functions; the database is an
in-memory record of tables threaded through each operation.  Side
effects that the claims observe (catch-up enqueues, host probes, merge
attempts, subscription registrations, wire frames) are returned as
explicit traces.
-/

/-- Errors of the embedded program.  Go wraps errors with
`fmt.Errorf("...: %w", err)`; `wrapped` models one wrapping layer and
`errIs` models `errors.Is`, which unwraps the chain. -/
inductive Err where
  | recordNotFound
  | invalidFedEvent
  | wrapped (ctxMsg : String) (e : Err)
  | mergeBaseMismatch
  | mergeOther (msg : String)
  | indexLookupFail (msg : String)
  | didDocFail (msg : String)
  | noServices
  | urlParseFail (msg : String)
  | handleResolveFail (msg : String)
  | uniqueViolation
  | profileFail (msg : String)
  | handleMismatch (fromDoc fromProfile : String)
  | nilDeref
  | noHost
  | bindFail (msg : String)
  | parseIntFail
  | subscribeFail (msg : String)
  | upgradeFail (msg : String)
  | writeFail (msg : String)
  deriving DecidableEq, Repr

deriving instance DecidableEq for Except

/-- Models Go `errors.Is`: the target matches the error itself or any
error in its wrap chain. -/
def errIs (e target : Err) : Bool :=
  match e with
  | .wrapped _ inner => e == target || errIs inner target
  | _ => e == target

/-- Returns `true` exactly on `Except.ok`. -/
def exceptOk {α : Type} : Except Err α → Bool
  | .ok _ => true
  | .error _ => false

/-- The gorm `User` row (bgs.go:78); `id` is the gorm primary key,
`handle` and `did` carry unique indexes, `pds` references the peering
host row. -/
structure User where
  id : Nat
  handle : String
  did : String
  pds : Nat
  deriving DecidableEq, Repr

/-- The `models.PDS` row: a peering record binding a host to the host's own
DID; `host` carries a unique index. -/
structure PDS where
  id : Nat
  host : String
  did : String
  deriving DecidableEq, Repr

/-- The `models.ActorInfo` record as constructed at bgs.go:279. -/
structure ActorInfo where
  uid : Nat
  handle : String
  displayName : String
  did : String
  declRefCid : String
  actorType : String
  pds : Nat
  deriving DecidableEq, Repr

/-- The `RepoAppend` payload of an event: expected previous revision,
ordered op list and content-addressed car blob (both opaque here). -/
structure RepoAppend where
  prev : Option String
  ops : List String
  car : List Nat
  deriving DecidableEq, Repr

/-- The `events.RepoEvent` shape as used by the bgs package: sequence number,
repository DID and optional append payload. -/
structure RepoEvent where
  seq : Int
  repo : String
  repoAppend : Option RepoAppend
  deriving DecidableEq, Repr

/-- One service entry of a DID document. -/
structure DidService where
  serviceEndpoint : String
  deriving DecidableEq, Repr

/-- The DID document returned by the directory resolver. -/
structure DidDocument where
  service : List DidService
  alsoKnownAs : List String
  deriving DecidableEq, Repr

/-- The slice of `net/url.URL` the code uses: scheme and host. -/
structure URL where
  scheme : String
  host : String
  deriving DecidableEq, Repr

/-- Renders `url.URL.String()` for a scheme+host URL. -/
def URL.render (u : URL) : String := u.scheme ++ "://" ++ u.host

/-- The peer-asserted profile (`bsky.ActorGetProfile` output) as used by
the code: `displayName` is an optional pointer in Go, dereferenced
unconditionally at bgs.go:282. -/
structure Profile where
  handle : String
  displayName : Option String
  declarationCid : String
  deriving DecidableEq, Repr

/-- The in-memory model of the relational store: the users table, the
peering-hosts table and the actor-info table.  Lookups never fail here
(the gorm `Find` error branches of the source are storage faults outside
this model); primary keys are assigned sequentially from 1, so a stored
row never has id 0 and gorm's `u.ID == 0` zero-value test coincides with
`Option.none` of `find?`. -/
structure DB where
  users : List User
  pdss : List PDS
  actorInfos : List ActorInfo
  deriving DecidableEq, Repr

/-- Models `db.Find(&u, "did = ?", did)` followed by the `u.ID == 0` test. -/
def DB.findUserByDid (db : DB) (did : String) : Option User :=
  db.users.find? (fun u => u.did == did)

/-- Models `db.Find(&peering, "host = ?", host)` followed by `peering.ID == 0`. -/
def DB.findPds (db : DB) (host : String) : Option PDS :=
  db.pdss.find? (fun p => p.host == host)

/-- Models `db.Create(&u)` under the unique indexes on `handle` and `did`
(bgs.go:80-81, spec section 6). -/
def DB.createUser (db : DB) (handle did : String) (pds : Nat) :
    Except Err (User × DB) :=
  if db.users.any (fun x => x.handle == handle || x.did == did) then
    .error .uniqueViolation
  else
    let u : User := ⟨db.users.length + 1, handle, did, pds⟩
    .ok (u, { db with users := db.users ++ [u] })

/-- Models `db.Create(&peering)` under the unique constraint on `host`. -/
def DB.createPds (db : DB) (host did : String) : Except Err (PDS × DB) :=
  if db.pdss.any (fun x => x.host == host) then
    .error .uniqueViolation
  else
    let p : PDS := ⟨db.pdss.length + 1, host, did⟩
    .ok (p, { db with pdss := db.pdss ++ [p] })

/-- Models `db.Create(subj)` for the actor-info table; no constraint is
modelled on that table, so the create always succeeds. -/
def DB.createActorInfo (db : DB) (ai : ActorInfo) : DB :=
  { db with actorInfos := db.actorInfos ++ [ai] }

/-- The function `lookupUserByDid` (bgs.go:148): find the user row, returning
`gorm.ErrRecordNotFound` when the row came back zero-valued. -/
def lookupUserByDid (db : DB) (did : String) : Except Err User :=
  match db.findUserByDid did with
  | none => .error .recordNotFound
  | some u => .ok u

/-- The external collaborators of `createExternalUser`: the PLC
directory client (`didr.GetDocument`), `url.Parse`, the
`atproto.HandleResolve` probe against a host, and
`bsky.ActorGetProfile` (host, did). -/
structure IdentEnv where
  getDocument : String → Except Err DidDocument
  urlParse : String → Except Err URL
  handleResolve : String → Except Err String
  getProfile : String → String → Except Err Profile

/-- Character-list prefix test. -/
def charsHavePre : List Char → List Char → Bool
  | [], _ => true
  | _ :: _, [] => false
  | p :: ps, c :: cs => p == c && charsHavePre ps cs

/-- Models `strings.HasPrefix(s, pre)`. -/
def hasPre (s pre : String) : Bool := charsHavePre pre.data s.data

/-- The localhost override of bgs.go:218: a `localhost:` host forces
plaintext scheme. -/
def adjustURL (u : URL) : URL :=
  if hasPre u.host "localhost:" then { u with scheme := "http" } else u

/-- Result of a `createExternalUser` run: the returned value, the
database afterwards, and the list of hosts probed via `HandleResolve`. -/
structure CEUOut where
  res : Except Err ActorInfo
  db : DB
  probes : List String
  deriving Repr

/-- bgs.go:223-245: look for a peering record; when absent, probe the
host (`HandleResolve`) and persist a new record.  Note the source sets
`peering.Host = svc.ServiceEndpoint` (the full endpoint string) while
the lookup used the parsed host component. -/
def ensurePeering (env : IdentEnv) (db : DB) (endpoint clientHost : String)
    (found : Option PDS) : Except Err (PDS × DB) × List String :=
  match found with
  | some p => (.ok (p, db), [])
  | none =>
    match env.handleResolve clientHost with
    | .error e =>
      (.error (.wrapped "failed to get accounts config for unrecognized pds" e), [clientHost])
    | .ok pdsdid =>
      match db.createPds endpoint pdsdid with
      | .error e => (.error e, [clientHost])
      | .ok (p, db1) => (.ok (p, db1), [clientHost])

/-- bgs.go:247-255: the candidate handle is the host component of the
first `alsoKnownAs` alias, or empty when none is declared. -/
def deriveHandle (env : IdentEnv) (doc : DidDocument) : Except Err String :=
  match doc.alsoKnownAs with
  | [] => .ok ""
  | aka :: _ =>
    match env.urlParse aka with
    | .error e => .error e
    | .ok hurl => .ok hurl.host

/-- bgs.go:262-292: the handle cross-check, the user-row create, the
construction of the ActorInfo (which dereferences the optional
`profile.DisplayName`; a missing value is the Go nil-pointer panic,
modelled as the `nilDeref` outcome) and the actor-info create. -/
def finishCreate (db : DB) (did handle : String) (profile : Profile)
    (pdsId : Nat) (probes : List String) : CEUOut :=
  if handle ≠ profile.handle then
    ⟨.error (.handleMismatch handle profile.handle), db, probes⟩
  else
    match db.createUser handle did pdsId with
    | .error e => ⟨.error (.wrapped "failed to create other pds user" e), db, probes⟩
    | .ok (u, db1) =>
      match profile.displayName with
      | none => ⟨.error .nilDeref, db1, probes⟩
      | some dn =>
        let subj : ActorInfo := ⟨u.id, handle, dn, did, profile.declarationCid, "", pdsId⟩
        ⟨.ok subj, db1.createActorInfo subj, probes⟩

/-- The function `createExternalUser` (bgs.go:201): fetch the DID document, require a
service endpoint, parse it, ensure a peering record (probing the host on
first contact), derive the directory handle, fetch the peer profile,
then validate and create the user and actor-info rows. -/
def createExternalUser (env : IdentEnv) (db : DB) (did : String) : CEUOut :=
  match env.getDocument did with
  | .error e => ⟨.error (.wrapped "could not locate DID document for followed user" e), db, []⟩
  | .ok doc =>
    match doc.service with
    | [] => ⟨.error .noServices, db, []⟩
    | svc :: _ =>
      match env.urlParse svc.serviceEndpoint with
      | .error e => ⟨.error e, db, []⟩
      | .ok durl0 =>
        let durl := adjustURL durl0
        match ensurePeering env db svc.serviceEndpoint durl.render (db.findPds durl.host) with
        | (.error e, probes) => ⟨.error e, db, probes⟩
        | (.ok (peering, db1), probes) =>
          match deriveHandle env doc with
          | .error e => ⟨.error e, db1, probes⟩
          | .ok handle =>
            match env.getProfile durl.render did with
            | .error e => ⟨.error e, db1, probes⟩
            | .ok profile => finishCreate db1 did handle profile peering.id probes

/-- The external collaborators of `handleFedEvent`: identity resolution
environment, the repo merge engine
(`repoman.HandleExternalUserEvent`, taking pds id, uid, prev, ops, car;
`none` is success) and `Index.LookupUser`.  The catch-up queue
(`Index.Crawler.AddToCatchupQueue`) is a sink whose enqueues are
recorded in the output trace. -/
structure FedEnv where
  identEnv : IdentEnv
  merge : Nat → Nat → Option String → List String → List Nat → Option Err
  lookupUser : Nat → Except Err ActorInfo

/-- Result of a `handleFedEvent` run: the returned value, the database
afterwards, the items enqueued into the catch-up queue, the merge
attempts (pds id, uid) and the dids passed to `createExternalUser`. -/
structure FedOut where
  res : Except Err Unit
  db : DB
  catchup : List (PDS × ActorInfo × RepoEvent)
  merges : List (Nat × Nat)
  ceuCalls : List String
  deriving Repr

/-- bgs.go:182-195: attempt the fast-path merge; a failure that is not
`carstore.ErrRepoBaseMismatch` is returned to the caller, a base
mismatch looks up the user's ActorInfo and enqueues one catch-up item. -/
def mergePhase (env : FedEnv) (db : DB) (host : PDS) (evt : RepoEvent)
    (append : RepoAppend) (uid : Nat) (ceuCalls : List String) : FedOut :=
  match env.merge host.id uid append.prev append.ops append.car with
  | none => ⟨.ok (), db, [], [(host.id, uid)], ceuCalls⟩
  | some e =>
    if errIs e .mergeBaseMismatch then
      match env.lookupUser uid with
      | .error e2 => ⟨.error e2, db, [], [(host.id, uid)], ceuCalls⟩
      | .ok ai => ⟨.ok (), db, [(host, ai, evt)], [(host.id, uid)], ceuCalls⟩
    else ⟨.error e, db, [], [(host.id, uid)], ceuCalls⟩

/-- The function `handleFedEvent` (bgs.go:161): only repo-append events are handled;
the repo did is resolved to a user, resolving identity synchronously via
`createExternalUser` when the row is absent, then the merge phase runs
with the resolved numeric uid. -/
def handleFedEvent (env : FedEnv) (db : DB) (host : PDS) (evt : RepoEvent) : FedOut :=
  match evt.repoAppend with
  | some append =>
    match lookupUserByDid db evt.repo with
    | .ok u => mergePhase env db host evt append u.id []
    | .error e =>
      if errIs e .recordNotFound then
        let o := createExternalUser env.identEnv db evt.repo
        match o.res with
        | .error e2 =>
          ⟨.error (.wrapped "fed event create external user" e2), o.db, [], [], [evt.repo]⟩
        | .ok subj => mergePhase env o.db host evt append subj.uid [evt.repo]
      else ⟨.error (.wrapped "looking up event user" e), db, [], [], []⟩
  | none => ⟨.error .invalidFedEvent, db, [], [], []⟩

/-- The body of POST /add-target (bgs.go:85). -/
structure AddTargetBody where
  host : String
  deriving DecidableEq, Repr

/-- The function `handleAddTarget` (bgs.go:90): bind the body, reject an empty host,
otherwise the result is exactly `slurper.SubscribeToPds` on that host.
The second component records the hosts actually passed to the
subscription manager. -/
def handleAddTarget (bindResult : Except Err AddTargetBody)
    (subscribeToPds : String → Except Err Unit) :
    Except Err Unit × List String :=
  match bindResult with
  | .error e => (.error e, [])
  | .ok body =>
    if body.host = "" then (.error .noHost, [])
    else (subscribeToPds body.host, [body.host])

/-- Digit run of a base-10 literal. -/
def digitsToNat : List Char → Option Nat
  | [] => some 0
  | c :: rest =>
    if c.isDigit then
      match digitsToNat rest with
      | none => none
      | some n => some ((c.toNat - 48) * 10 ^ rest.length + n)
    else none

/-- Models `strconv.ParseInt(s, 10, 64)`: optional sign, a non-empty
run of decimal digits, and the int64 range check. -/
def parseInt10 (s : String) : Option Int :=
  let cs := s.data
  let signed : Int × List Char :=
    match cs with
    | '+' :: rest => (1, rest)
    | '-' :: rest => (-1, rest)
    | _ => (1, cs)
  match signed with
  | (sign, ds) =>
    if ds.isEmpty then none
    else
      match digitsToNat ds with
      | none => none
      | some n =>
        let v : Int := sign * n
        if v < -(2 ^ 63) ∨ 2 ^ 63 - 1 < v then none else some v

/-- bgs.go:110-117: an absent `since` header means no starting cursor;
a present header must parse as a base-10 int64. -/
def parseSince (h : String) : Except Err (Option Int) :=
  if h = "" then .ok none
  else
    match parseInt10 h with
    | none => .error .parseIntFail
    | some v => .ok (some v)

/-- The filter closure passed to `Subscribe` at bgs.go:119:
`func(evt *events.RepoEvent) bool \x7b return true \x7d`. -/
def eventsFilter : RepoEvent → Bool := fun _ => true

/-- The header written before every event body (bgs.go:125):
`events.EventHeader\x7bType: "data"\x7d`. -/
structure EventHeader where
  htype : String
  deriving DecidableEq, Repr

/-- The constant header value of the events loop. -/
def dataHeader : EventHeader := ⟨"data"⟩

/-- One outbound websocket binary message: the self-delimited encoded
objects written into it, and whether the writer was flush-closed. -/
structure Frame where
  objs : List (List Nat)
  closed : Bool
  deriving DecidableEq, Repr

/-- The per-event wire collaborators: `conn.NextWriter`, the two
`MarshalCBOR` calls (returning the encoded bytes) and the flush-close of
the frame writer.  Each is indexed by the event so failures can depend
on connection state. -/
structure WireEnv where
  nextWriter : RepoEvent → Except Err Unit
  marshalHeader : EventHeader → RepoEvent → Except Err (List Nat)
  marshalEvent : RepoEvent → Except Err (List Nat)
  closeWriter : RepoEvent → Except Err Unit

/-- bgs.go:127-142: one iteration of the delivery loop — open a binary
frame, write the header object, write the event object, flush-close. -/
def writeEvent (w : WireEnv) (header : EventHeader) (e : RepoEvent) :
    Except Err Frame :=
  match w.nextWriter e with
  | .error err => .error err
  | .ok _ =>
    match w.marshalHeader header e with
    | .error err => .error (.wrapped "failed to write header" err)
    | .ok hb =>
      match w.marshalEvent e with
      | .error err => .error (.wrapped "failed to write event" err)
      | .ok eb =>
        match w.closeWriter e with
        | .error err => .error (.wrapped "failed to flush-close our event write" err)
        | .ok _ => .ok ⟨[hb, eb], true⟩

/-- The `for evt := range evts` loop: frames written so far stand; the
first failing step returns its error and stops the loop. -/
def eventsLoop (w : WireEnv) : List RepoEvent → Except Err Unit × List Frame
  | [] => (.ok (), [])
  | e :: rest =>
    match writeEvent w dataHeader e with
    | .error err => (.error err, [])
    | .ok f =>
      match eventsLoop w rest with
      | (r, fs) => (r, f :: fs)

/-- The external collaborators of `EventsHandler`: the websocket
upgrade, the raw `since` header (`""` when absent, as
`http.Header.Get` returns), the event manager's `Subscribe` (whose
delivered channel is modelled as the finite list of events received
before the stream ends) and the wire steps. -/
structure EventsEnv where
  upgrade : Except Err Unit
  sinceHeader : String
  subscribe : (RepoEvent → Bool) → Option Int → Except Err (List RepoEvent)
  wire : WireEnv

/-- Result of an `EventsHandler` run: the returned value, the cursor
arguments of the `Subscribe` calls made, the frames written, and
whether the deferred `cancel()` ran (it runs on every exit path once
the subscription exists). -/
structure EventsOut where
  res : Except Err Unit
  subCalls : List (Option Int)
  frames : List Frame
  cancelled : Bool
  deriving Repr

/-- The function `EventsHandler` (bgs.go:103): upgrade, parse the optional `since`
header, subscribe with the constant-true filter, then run the delivery
loop; `defer cancel()` covers every exit after a successful subscribe. -/
def EventsHandler (env : EventsEnv) : EventsOut :=
  match env.upgrade with
  | .error e => ⟨.error e, [], [], false⟩
  | .ok _ =>
    match parseSince env.sinceHeader with
    | .error e => ⟨.error e, [], [], false⟩
    | .ok since =>
      match env.subscribe eventsFilter since with
      | .error e => ⟨.error e, [since], [], false⟩
      | .ok evts =>
        match eventsLoop env.wire evts with
        | (r, fs) => ⟨r, [since], fs, true⟩

/-- Modelled from the spec: the Event Log's delivery discipline for one
subscription — "a subscription only ever receives events for which the
predicate returns true" (section 4.3).  The `events.EventManager`
implementation is outside this source tree. -/
def deliverFiltered (filter : RepoEvent → Bool) (published : List RepoEvent) :
    List RepoEvent :=
  published.filter filter

/-! ## Helper lemmas -/

theorem ensurePeering_preserves (env : IdentEnv) (db : DB) (ep ch : String)
    (found : Option PDS) (p : PDS) (db1 : DB) (pr : List String)
    (h : ensurePeering env db ep ch found = (.ok (p, db1), pr)) :
    db1.users = db.users ∧ db1.actorInfos = db.actorInfos := by
  unfold ensurePeering at h
  split at h
  · simp only [Prod.mk.injEq, Except.ok.injEq] at h
    obtain ⟨⟨-, h2⟩, -⟩ := h
    subst h2
    exact ⟨rfl, rfl⟩
  · split at h
    · simp at h
    · unfold DB.createPds at h
      split at h
      · simp at h
      · rename_i p2 db2 heq
        split at heq
        · simp at heq
        · simp only [Except.ok.injEq, Prod.mk.injEq] at heq h
          obtain ⟨-, hdb⟩ := heq
          obtain ⟨⟨-, h2⟩, -⟩ := h
          subst h2
          subst hdb
          exact ⟨rfl, rfl⟩

/-! ## C2 -/

/-- C2: a directory document with zero service endpoints makes
`createExternalUser` fail with the no-service error and leave the
database untouched; and any resolution that reaches the cross-check
with a directory-derived handle different from the peer-profile handle
fails with the handle-mismatch error, creating no user row and no
actor-info record. -/
theorem ceu_trust_gate (env : IdentEnv) (db : DB) (did : String) :
    (∀ doc, env.getDocument did = .ok doc → doc.service = [] →
      (createExternalUser env db did).res = .error .noServices ∧
      (createExternalUser env db did).db = db)
    ∧ (∀ doc svc rest durl0 p db1 pr handle profile,
      env.getDocument did = .ok doc →
      doc.service = svc :: rest →
      env.urlParse svc.serviceEndpoint = .ok durl0 →
      ensurePeering env db svc.serviceEndpoint (adjustURL durl0).render
        (db.findPds (adjustURL durl0).host) = (.ok (p, db1), pr) →
      deriveHandle env doc = .ok handle →
      env.getProfile (adjustURL durl0).render did = .ok profile →
      handle ≠ profile.handle →
      (createExternalUser env db did).res = .error (.handleMismatch handle profile.handle) ∧
      (createExternalUser env db did).db.users = db.users ∧
      (createExternalUser env db did).db.actorInfos = db.actorInfos) := by
  constructor
  · intro doc h1 h2
    simp [createExternalUser, h1, h2]
  · intro doc svc rest durl0 p db1 pr handle profile h1 h2 h3 h4 h5 h6 h7
    have hpres := ensurePeering_preserves env db svc.serviceEndpoint
      (adjustURL durl0).render (db.findPds (adjustURL durl0).host) p db1 pr h4
    have hrun : createExternalUser env db did =
        ⟨.error (.handleMismatch handle profile.handle), db1, pr⟩ := by
      simp only [createExternalUser, h1, h2, h3, h4, h5, h6, finishCreate, if_pos h7]
    rw [hrun]
    exact ⟨rfl, hpres.1, hpres.2⟩

/-- An empty database. -/
def emptyDB : DB := ⟨[], [], []⟩

/-- A directory document with no services. -/
def w2docEmpty : DidDocument := ⟨[], []⟩

/-- An identity environment whose directory returns a service-less
document. -/
def w2envEmpty : IdentEnv :=
  ⟨fun _ => .ok w2docEmpty, fun s => .error (.urlParseFail s),
   fun h => .error (.handleResolveFail h), fun _ d => .error (.profileFail d)⟩

/-- A directory document for host `foo.example` with alias
`alice.example`. -/
def w2doc : DidDocument := ⟨[⟨"https://foo.example"⟩], ["https://alice.example"]⟩

/-- A concrete `url.Parse` covering the strings the witnesses use. -/
def wUrlParse : String → Except Err URL := fun s =>
  if s = "https://foo.example" then .ok ⟨"https", "foo.example"⟩
  else if s = "https://alice.example" then .ok ⟨"https", "alice.example"⟩
  else if s = "https://bob.example" then .ok ⟨"https", "bob.example"⟩
  else .error (.urlParseFail s)

/-- An identity environment whose peer profile asserts handle
`bob.example` while the directory alias is `alice.example`. -/
def w2env : IdentEnv :=
  ⟨fun _ => .ok w2doc, wUrlParse, fun _ => .ok "did:web:foo.example",
   fun _ _ => .ok ⟨"bob.example", some "Bob", "cid-b"⟩⟩

theorem ceu_trust_gate_witness :
    ((createExternalUser w2envEmpty emptyDB "did:plc:alice").res = .error .noServices ∧
      (createExternalUser w2envEmpty emptyDB "did:plc:alice").db = emptyDB)
    ∧ ((createExternalUser w2env emptyDB "did:plc:alice").res =
        .error (.handleMismatch "alice.example" "bob.example") ∧
      (createExternalUser w2env emptyDB "did:plc:alice").db.users = emptyDB.users ∧
      (createExternalUser w2env emptyDB "did:plc:alice").db.actorInfos = emptyDB.actorInfos) :=
  ⟨(ceu_trust_gate w2envEmpty emptyDB "did:plc:alice").1 w2docEmpty rfl rfl,
   (ceu_trust_gate w2env emptyDB "did:plc:alice").2 w2doc ⟨"https://foo.example"⟩ []
     ⟨"https", "foo.example"⟩ ⟨1, "https://foo.example", "did:web:foo.example"⟩
     ⟨[], [⟨1, "https://foo.example", "did:web:foo.example"⟩], []⟩ ["https://foo.example"]
     "alice.example" ⟨"bob.example", some "Bob", "cid-b"⟩
     (by decide) (by decide) (by decide) (by decide) (by decide) (by decide) (by decide)⟩

/-! ## C9 -/

theorem finishCreate_no_display (db : DB) (did handle : String)
    (profile : Profile) (pdsId : Nat) (probes : List String)
    (hdn : profile.displayName = none) :
    exceptOk (finishCreate db did handle profile pdsId probes).res = false := by
  unfold finishCreate
  split
  · rfl
  · split
    · rfl
    · rw [hdn]
      rfl

/-- C9: the ActorInfo construction dereferences the profile's optional
display-name (bgs.go:282) unconditionally, so whenever the peer profile
carries no display name, `createExternalUser` cannot complete normally:
its result is never `ok` (the missing-pointer dereference is the
`nilDeref` outcome). -/
theorem ceu_requires_display (env : IdentEnv) (db : DB) (did : String)
    (hdn : ∀ hst d p, env.getProfile hst d = .ok p → p.displayName = none) :
    exceptOk (createExternalUser env db did).res = false := by
  cases hdoc : env.getDocument did with
  | error e => simp [createExternalUser, exceptOk, hdoc]
  | ok doc =>
    cases hsvc : doc.service with
    | nil => simp [createExternalUser, exceptOk, hdoc, hsvc]
    | cons svc rest =>
      cases hurl : env.urlParse svc.serviceEndpoint with
      | error e => simp [createExternalUser, exceptOk, hdoc, hsvc, hurl]
      | ok durl0 =>
        rcases hpeer : ensurePeering env db svc.serviceEndpoint
            (adjustURL durl0).render (db.findPds (adjustURL durl0).host) with ⟨pres, prb⟩
        cases pres with
        | error e => simp [createExternalUser, exceptOk, hdoc, hsvc, hurl, hpeer]
        | ok pd =>
          obtain ⟨p, db1⟩ := pd
          cases hhand : deriveHandle env doc with
          | error e => simp [createExternalUser, exceptOk, hdoc, hsvc, hurl, hpeer, hhand]
          | ok handle =>
            cases hprof : env.getProfile (adjustURL durl0).render did with
            | error e =>
              simp [createExternalUser, exceptOk, hdoc, hsvc, hurl, hpeer, hhand, hprof]
            | ok profile =>
              have hfin := finishCreate_no_display db1 did handle profile p.id prb
                (hdn _ _ _ hprof)
              simp only [createExternalUser, hdoc, hsvc, hurl, hpeer, hhand, hprof]
              exact hfin

/-- An identity environment whose peer profile carries no display name. -/
def w9env : IdentEnv :=
  ⟨fun _ => .ok w2doc, wUrlParse, fun _ => .ok "did:web:foo.example",
   fun _ _ => .ok ⟨"alice.example", none, "cid-a"⟩⟩

theorem ceu_requires_display_witness :
    exceptOk (createExternalUser w9env emptyDB "did:plc:alice").res = false :=
  ceu_requires_display w9env emptyDB "did:plc:alice"
    (fun _ _ p hp => by
      have hp2 : Except.ok (Profile.mk "alice.example" none "cid-a") = Except.ok p := hp
      injection hp2 with hp3
      rw [← hp3])

/-! ## C3 -/

/-- A directory document on host endpoint `https://foo.example` with the
given alias. -/
def c3doc (aka : String) : DidDocument := ⟨[⟨"https://foo.example"⟩], [aka]⟩

/-- Two actors (alice, bob) whose documents share the service endpoint
`https://foo.example`; each peer profile matches its directory alias. -/
def c3env : IdentEnv :=
  ⟨fun did =>
    if did = "did:plc:alice" then .ok (c3doc "https://alice.example")
    else if did = "did:plc:bob" then .ok (c3doc "https://bob.example")
    else .error (.didDocFail did),
   wUrlParse,
   fun _ => .ok "did:web:foo.example",
   fun _ did =>
    if did = "did:plc:alice" then .ok ⟨"alice.example", some "Alice", "cid-a"⟩
    else if did = "did:plc:bob" then .ok ⟨"bob.example", some "Bob", "cid-b"⟩
    else .error (.profileFail did)⟩

/-- First contact: resolving alice creates the peering record. -/
def c3run1 : CEUOut := createExternalUser c3env emptyDB "did:plc:alice"

/-- Second resolution whose service endpoint parses to the same host. -/
def c3run2 : CEUOut := createExternalUser c3env c3run1.db "did:plc:bob"

/-- C3 (code bug exhibited): the lookup key is the parsed host component
`foo.example` while the persisted record binds the full endpoint
`https://foo.example` (bgs.go:224 vs bgs.go:239).  A second resolution
whose endpoint parses to the same host therefore does not find the
existing record, performs a new probe, and its PeeringRecord insert
collides with the unique host constraint, failing the resolution —
contrary to the same-key/no-reprobe behaviour. -/
theorem ceu_peering_key_mismatch :
    exceptOk c3run1.res = true
    ∧ c3run1.db.pdss = [⟨1, "https://foo.example", "did:web:foo.example"⟩]
    ∧ c3run1.db.findPds "foo.example" = none
    ∧ c3run2.probes = ["https://foo.example"]
    ∧ c3run2.res = .error .uniqueViolation := by
  decide

/-! ## C1 -/

theorem mergePhase_fields (env : FedEnv) (db : DB) (host : PDS) (evt : RepoEvent)
    (append : RepoAppend) (uid : Nat) (cc : List String) :
    (mergePhase env db host evt append uid cc).merges = [(host.id, uid)] ∧
    (mergePhase env db host evt append uid cc).ceuCalls = cc ∧
    (mergePhase env db host evt append uid cc).db = db := by
  unfold mergePhase
  repeat' split
  all_goals exact ⟨rfl, rfl, rfl⟩

theorem fedEvent_merge_run (env : FedEnv) (db : DB) (host : PDS)
    (evt : RepoEvent) (append : RepoAppend) (uid : Nat)
    (ha : evt.repoAppend = some append)
    (hm : (handleFedEvent env db host evt).merges = [(host.id, uid)]) :
    ∃ dbm cc, handleFedEvent env db host evt = mergePhase env dbm host evt append uid cc := by
  cases hl : db.findUserByDid evt.repo with
  | some u =>
    have hfed : handleFedEvent env db host evt =
        mergePhase env db host evt append u.id [] := by
      simp [handleFedEvent, ha, lookupUserByDid, hl]
    have hmf := mergePhase_fields env db host evt append u.id []
    rw [hfed, hmf.1] at hm
    simp only [List.cons.injEq, Prod.mk.injEq, and_true] at hm
    refine ⟨db, [], ?_⟩
    rw [hfed, hm.2]
  | none =>
    cases hres : (createExternalUser env.identEnv db evt.repo).res with
    | error e2 =>
      exfalso
      have hempty : (handleFedEvent env db host evt).merges = [] := by
        simp [handleFedEvent, ha, lookupUserByDid, hl, errIs, hres]
      rw [hempty] at hm
      simp at hm
    | ok subj =>
      have hfed : handleFedEvent env db host evt =
          mergePhase env (createExternalUser env.identEnv db evt.repo).db host evt
            append subj.uid [evt.repo] := by
        simp [handleFedEvent, ha, lookupUserByDid, hl, errIs, hres]
      have hmf := mergePhase_fields env (createExternalUser env.identEnv db evt.repo).db
        host evt append subj.uid [evt.repo]
      rw [hfed, hmf.1] at hm
      simp only [List.cons.injEq, Prod.mk.injEq, and_true] at hm
      refine ⟨(createExternalUser env.identEnv db evt.repo).db, [evt.repo], ?_⟩
      rw [hfed, hm.2]

/-- C1: for every repo-append event whose processing attempts a merge —
whether for an already-known user or for one freshly created by
`createExternalUser` in the same call, the attempted uid being the one
recorded in the merge trace — a merge failure that `errors.Is`
recognises as the repo-base-mismatch error is not returned: the user's
ActorInfo is looked up and exactly one catch-up item (source host, that
record, the original event) is enqueued; any merge failure that is not
a base mismatch is returned to the caller and nothing is enqueued. -/
theorem fedEvent_base_mismatch_catchup (env : FedEnv) (db : DB) (host : PDS)
    (evt : RepoEvent) (append : RepoAppend) (uid : Nat) (ai : ActorInfo)
    (ha : evt.repoAppend = some append)
    (hm : (handleFedEvent env db host evt).merges = [(host.id, uid)]) :
    (∀ e, env.merge host.id uid append.prev append.ops append.car = some e →
      errIs e .mergeBaseMismatch = true →
      env.lookupUser uid = .ok ai →
      (handleFedEvent env db host evt).res = .ok () ∧
      (handleFedEvent env db host evt).catchup = [(host, ai, evt)])
    ∧ (∀ e, env.merge host.id uid append.prev append.ops append.car = some e →
      errIs e .mergeBaseMismatch = false →
      (handleFedEvent env db host evt).res = .error e ∧
      (handleFedEvent env db host evt).catchup = []) := by
  obtain ⟨dbm, cc, hrun⟩ := fedEvent_merge_run env db host evt append uid ha hm
  constructor
  · intro e hme hbm hai
    rw [hrun]
    simp [mergePhase, hme, hbm, hai]
  · intro e hme hbm
    rw [hrun]
    simp [mergePhase, hme, hbm]

/-- A database already holding alice's user row. -/
def w1db : DB :=
  ⟨[⟨1, "alice.example", "did:plc:alice", 1⟩],
   [⟨1, "https://foo.example", "did:web:foo.example"⟩], []⟩

/-- The upstream source host of the witness events. -/
def w1host : PDS := ⟨2, "pds.example", "did:web:pds.example"⟩

/-- A concrete repo-append payload. -/
def w1append : RepoAppend := ⟨some "prevcid", ["create"], [0, 1]⟩

/-- A concrete repo-append event for alice. -/
def w1evt : RepoEvent := ⟨7, "did:plc:alice", some w1append⟩

/-- Alice's directory record. -/
def w1ai : ActorInfo := ⟨1, "alice.example", "Alice", "did:plc:alice", "cid-a", "", 1⟩

/-- A fed environment whose merge engine reports a base mismatch. -/
def w1envMismatch : FedEnv :=
  ⟨w2env, fun _ _ _ _ _ => some .mergeBaseMismatch, fun _ => .ok w1ai⟩

/-- A fed environment whose merge engine reports a non-mismatch error. -/
def w1envOther : FedEnv :=
  ⟨w2env, fun _ _ _ _ _ => some (.mergeOther "boom"), fun _ => .ok w1ai⟩

/-- An identity environment that resolves alice successfully. -/
def w8ident : IdentEnv :=
  ⟨fun _ => .ok w2doc, wUrlParse, fun _ => .ok "did:web:foo.example",
   fun _ _ => .ok ⟨"alice.example", some "Alice", "cid-a"⟩⟩

/-- A fed environment that resolves alice successfully and whose merge
engine reports a base mismatch: the fresh-user merge path. -/
def w1envFresh : FedEnv :=
  ⟨w8ident, fun _ _ _ _ _ => some .mergeBaseMismatch, fun _ => .ok w1ai⟩

theorem fedEvent_base_mismatch_catchup_witness :
    ((handleFedEvent w1envMismatch w1db w1host w1evt).res = .ok () ∧
      (handleFedEvent w1envMismatch w1db w1host w1evt).catchup = [(w1host, w1ai, w1evt)])
    ∧ ((handleFedEvent w1envOther w1db w1host w1evt).res = .error (.mergeOther "boom") ∧
      (handleFedEvent w1envOther w1db w1host w1evt).catchup = [])
    ∧ ((handleFedEvent w1envFresh emptyDB w1host w1evt).res = .ok () ∧
      (handleFedEvent w1envFresh emptyDB w1host w1evt).catchup = [(w1host, w1ai, w1evt)]) :=
  ⟨(fedEvent_base_mismatch_catchup w1envMismatch w1db w1host w1evt w1append 1 w1ai
      rfl (by decide)).1 .mergeBaseMismatch rfl (by decide) rfl,
   (fedEvent_base_mismatch_catchup w1envOther w1db w1host w1evt w1append 1 w1ai
      rfl (by decide)).2 (.mergeOther "boom") rfl (by decide),
   (fedEvent_base_mismatch_catchup w1envFresh emptyDB w1host w1evt w1append 1 w1ai
      rfl (by decide)).1 .mergeBaseMismatch rfl (by decide) rfl⟩

/-! ## C8 -/

/-- C8: for a repo-append event whose repo DID has no user row,
`handleFedEvent` synchronously invokes `createExternalUser`; a failure
there aborts the event with the wrapped identity-resolution error, with
no catch-up enqueue and no merge attempt; a success leads to exactly one
merge attempt using the freshly created user's numeric uid. -/
theorem fedEvent_creates_user (env : FedEnv) (db : DB) (host : PDS)
    (evt : RepoEvent) (append : RepoAppend)
    (ha : evt.repoAppend = some append)
    (hu : db.findUserByDid evt.repo = none) :
    (∀ e, (createExternalUser env.identEnv db evt.repo).res = .error e →
      (handleFedEvent env db host evt).res =
        .error (.wrapped "fed event create external user" e) ∧
      (handleFedEvent env db host evt).catchup = [] ∧
      (handleFedEvent env db host evt).merges = [])
    ∧ (∀ subj, (createExternalUser env.identEnv db evt.repo).res = .ok subj →
      (handleFedEvent env db host evt).ceuCalls = [evt.repo] ∧
      (handleFedEvent env db host evt).merges = [(host.id, subj.uid)]) := by
  constructor
  · intro e hc
    simp [handleFedEvent, ha, lookupUserByDid, hu, errIs, hc]
  · intro subj hc
    have hmf := mergePhase_fields env (createExternalUser env.identEnv db evt.repo).db
      host evt append subj.uid [evt.repo]
    simp [handleFedEvent, ha, lookupUserByDid, hu, errIs, hc]
    exact ⟨hmf.2.1, hmf.1⟩

/-- A fed environment with successful identity resolution and merges. -/
def w8env : FedEnv := ⟨w8ident, fun _ _ _ _ _ => none, fun _ => .ok w1ai⟩

/-- A fed environment whose identity resolution hits the handle
mismatch. -/
def w8envBad : FedEnv := ⟨w2env, fun _ _ _ _ _ => none, fun _ => .ok w1ai⟩

theorem fedEvent_creates_user_witness :
    ((handleFedEvent w8envBad emptyDB w1host w1evt).res =
      .error (.wrapped "fed event create external user"
        (.handleMismatch "alice.example" "bob.example")) ∧
      (handleFedEvent w8envBad emptyDB w1host w1evt).catchup = [] ∧
      (handleFedEvent w8envBad emptyDB w1host w1evt).merges = [])
    ∧ ((handleFedEvent w8env emptyDB w1host w1evt).ceuCalls = ["did:plc:alice"] ∧
      (handleFedEvent w8env emptyDB w1host w1evt).merges = [(2, 1)]) :=
  ⟨(fedEvent_creates_user w8envBad emptyDB w1host w1evt w1append rfl rfl).1
      (.handleMismatch "alice.example" "bob.example") (by decide),
   (fedEvent_creates_user w8env emptyDB w1host w1evt w1append rfl rfl).2
      ⟨1, "alice.example", "Alice", "did:plc:alice", "cid-a", "", 1⟩ (by decide)⟩

/-! ## C4 -/

/-- Number of user rows carrying the given DID. -/
def countDid (db : DB) (d : String) : Nat :=
  (db.users.filter (fun u => u.did == d)).length

theorem findUser_of_countDid_pos (db : DB) (d : String)
    (h : 1 ≤ countDid db d) : ∃ u, db.findUserByDid d = some u := by
  cases hf : db.findUserByDid d with
  | some u => exact ⟨u, rfl⟩
  | none =>
    exfalso
    unfold DB.findUserByDid at hf
    rw [List.find?_eq_none] at hf
    unfold countDid at h
    have hne : db.users.filter (fun u => u.did == d) ≠ [] := by
      intro hh
      rw [hh] at h
      simp at h
    obtain ⟨x, hx⟩ := List.exists_mem_of_ne_nil _ hne
    have hx2 := List.mem_filter.mp hx
    exact hf x hx2.1 hx2.2

theorem ceu_users_shape (env : IdentEnv) (db : DB) (did : String) :
    (createExternalUser env db did).db.users = db.users ∨
    (∃ u : User, u.did = did ∧
      (db.users.any fun x => x.handle == u.handle || x.did == did) = false ∧
      (createExternalUser env db did).db.users = db.users ++ [u]) := by
  cases hdoc : env.getDocument did with
  | error e => left; simp [createExternalUser, hdoc]
  | ok doc =>
    cases hsvc : doc.service with
    | nil => left; simp [createExternalUser, hdoc, hsvc]
    | cons svc rest =>
      cases hurl : env.urlParse svc.serviceEndpoint with
      | error e => left; simp [createExternalUser, hdoc, hsvc, hurl]
      | ok durl0 =>
        rcases hpeer : ensurePeering env db svc.serviceEndpoint
            (adjustURL durl0).render (db.findPds (adjustURL durl0).host) with ⟨pres, prb⟩
        cases pres with
        | error e => left; simp [createExternalUser, hdoc, hsvc, hurl, hpeer]
        | ok pd =>
          obtain ⟨p, db1⟩ := pd
          have hpres := ensurePeering_preserves env db svc.serviceEndpoint
            (adjustURL durl0).render (db.findPds (adjustURL durl0).host) p db1 prb hpeer
          cases hhand : deriveHandle env doc with
          | error e =>
            left
            simp only [createExternalUser, hdoc, hsvc, hurl, hpeer, hhand]
            exact hpres.1
          | ok handle =>
            cases hprof : env.getProfile (adjustURL durl0).render did with
            | error e =>
              left
              simp only [createExternalUser, hdoc, hsvc, hurl, hpeer, hhand, hprof]
              exact hpres.1
            | ok profile =>
              simp only [createExternalUser, hdoc, hsvc, hurl, hpeer, hhand, hprof]
              unfold finishCreate
              split
              · left; exact hpres.1
              · split
                · rename_i x u2 db2 heq
                  unfold DB.createUser at heq
                  split at heq
                  · left; exact hpres.1
                  · simp at heq
                · rename_i x u2 db2 heq
                  unfold DB.createUser at heq
                  split at heq
                  · simp at heq
                  · rename_i hany
                    simp only [Except.ok.injEq, Prod.mk.injEq] at heq
                    obtain ⟨hu2, hdb2⟩ := heq
                    right
                    refine ⟨⟨db1.users.length + 1, handle, did, p.id⟩, rfl, ?_, ?_⟩
                    · rw [← hpres.1]
                      simpa using hany
                    · have husers : db2.users = db1.users ++
                          [⟨db1.users.length + 1, handle, did, p.id⟩] := by
                        rw [← hdb2]
                      split
                      · rw [husers, hpres.1]
                      · simp only [DB.createActorInfo]
                        rw [husers, hpres.1]

theorem ceu_countDid (env : IdentEnv) (db : DB) (did : String) :
    countDid (createExternalUser env db did).db did ≤ max 1 (countDid db did) := by
  rcases ceu_users_shape env db did with h | ⟨u, hud, hany, h⟩
  · unfold countDid
    rw [h]
    exact Nat.le_max_right _ _
  · have hnil : db.users.filter (fun x => x.did == did) = [] := by
      rw [List.filter_eq_nil_iff]
      intro a ha hpa
      rw [List.any_eq_false] at hany
      exact hany a ha (by simp [hpa])
    unfold countDid
    rw [h, List.filter_append, hnil]
    simp [hud]

/-- C4: lookup-before-create holds in `handleFedEvent`: when a user row
for the event's repo DID already exists, processing the event neither
invokes `createExternalUser` nor changes the users table; and in every
case the number of user rows for that DID afterwards is at most
`max 1` of the number before — so under non-concurrent calls a DID maps
to at most one LocalUser row, and a second event for an already-resolved
DID creates nothing. -/
theorem fedEvent_user_unique (env : FedEnv) (db : DB) (host : PDS) (evt : RepoEvent) :
    (1 ≤ countDid db evt.repo →
      (handleFedEvent env db host evt).db.users = db.users ∧
      (handleFedEvent env db host evt).ceuCalls = [])
    ∧ countDid (handleFedEvent env db host evt).db evt.repo ≤
        max 1 (countDid db evt.repo) := by
  constructor
  · intro h
    obtain ⟨u, hu⟩ := findUser_of_countDid_pos db evt.repo h
    cases ha : evt.repoAppend with
    | none => simp [handleFedEvent, ha]
    | some append =>
      have hmf := mergePhase_fields env db host evt append u.id []
      simp only [handleFedEvent, ha, lookupUserByDid, hu]
      exact ⟨congrArg DB.users hmf.2.2, hmf.2.1⟩
  · cases ha : evt.repoAppend with
    | none =>
      have hdb : (handleFedEvent env db host evt).db = db := by
        simp [handleFedEvent, ha]
      rw [hdb]
      exact Nat.le_max_right _ _
    | some append =>
      cases hf : db.findUserByDid evt.repo with
      | some u =>
        have hmf := mergePhase_fields env db host evt append u.id []
        have hdb : (handleFedEvent env db host evt).db = db := by
          simp only [handleFedEvent, ha, lookupUserByDid, hf]
          exact hmf.2.2
        rw [hdb]
        exact Nat.le_max_right _ _
      | none =>
        have hc := ceu_countDid env.identEnv db evt.repo
        cases hres : (createExternalUser env.identEnv db evt.repo).res with
        | error e =>
          have hdb : (handleFedEvent env db host evt).db =
              (createExternalUser env.identEnv db evt.repo).db := by
            simp [handleFedEvent, ha, lookupUserByDid, hf, errIs, hres]
          rw [hdb]
          exact hc
        | ok subj =>
          have hmf := mergePhase_fields env
            (createExternalUser env.identEnv db evt.repo).db host evt append
            subj.uid [evt.repo]
          have hdb : (handleFedEvent env db host evt).db =
              (createExternalUser env.identEnv db evt.repo).db := by
            simp only [handleFedEvent, ha, lookupUserByDid, hf, errIs]
            simp only [hres]
            simp
            exact hmf.2.2
          rw [hdb]
          exact hc

theorem fedEvent_user_unique_witness :
    (1 ≤ countDid w1db "did:plc:alice"
      ∧ (handleFedEvent w8env w1db w1host w1evt).db.users = w1db.users
      ∧ (handleFedEvent w8env w1db w1host w1evt).ceuCalls = [])
    ∧ countDid (handleFedEvent w8env w1db w1host w1evt).db "did:plc:alice" ≤
        max 1 (countDid w1db "did:plc:alice") :=
  ⟨⟨by decide, (fedEvent_user_unique w8env w1db w1host w1evt).1 (by decide)⟩,
   (fedEvent_user_unique w8env w1db w1host w1evt).2⟩

/-! ## C7 -/

/-- C7: an add-target body with an empty host is rejected before any
call to the subscription manager (no host is ever passed on), and for a
non-empty host the handler's result is exactly the manager's
`SubscribeToPds` result, after passing exactly that host. -/
theorem addTarget_gate (bindResult : Except Err AddTargetBody)
    (sub : String → Except Err Unit) :
    (∀ body, bindResult = .ok body → body.host = "" →
      handleAddTarget bindResult sub = (.error .noHost, []))
    ∧ (∀ body, bindResult = .ok body → body.host ≠ "" →
      handleAddTarget bindResult sub = (sub body.host, [body.host])) := by
  constructor
  · intro body hb hh
    simp [handleAddTarget, hb, hh]
  · intro body hb hh
    simp [handleAddTarget, hb, hh]

theorem addTarget_gate_witness :
    handleAddTarget (.ok ⟨""⟩) (fun _ => .ok ()) = (.error .noHost, [])
    ∧ handleAddTarget (.ok ⟨"pds.example"⟩) (fun _ => .ok ()) = (.ok (), ["pds.example"]) :=
  ⟨(addTarget_gate (.ok ⟨""⟩) (fun _ => .ok ())).1 ⟨""⟩ rfl rfl,
   (addTarget_gate (.ok ⟨"pds.example"⟩) (fun _ => .ok ())).2 ⟨"pds.example"⟩ rfl (by decide)⟩

/-! ## C5 -/

/-- C5: with the upgrade succeeding, an absent `since` header leads to a
single `Subscribe` call with no starting cursor; a header that parses as
a base-10 integer leads to a single `Subscribe` call with exactly that
cursor; an unparseable header fails the request with the parse error
before any `Subscribe` call is made. -/
theorem eventsHandler_since (env : EventsEnv) (hup : env.upgrade = .ok ()) :
    (env.sinceHeader = "" → (EventsHandler env).subCalls = [none])
    ∧ (∀ v, env.sinceHeader ≠ "" → parseInt10 env.sinceHeader = some v →
      (EventsHandler env).subCalls = [some v])
    ∧ (env.sinceHeader ≠ "" → parseInt10 env.sinceHeader = none →
      (EventsHandler env).res = .error .parseIntFail ∧
      (EventsHandler env).subCalls = []) := by
  refine ⟨?_, ?_, ?_⟩
  · intro h0
    have hps : parseSince env.sinceHeader = .ok none := by simp [parseSince, h0]
    cases hsub : env.subscribe eventsFilter none with
    | error e => simp [EventsHandler, hup, hps, hsub]
    | ok evts => simp [EventsHandler, hup, hps, hsub]
  · intro v hne hv
    have hps : parseSince env.sinceHeader = .ok (some v) := by
      simp [parseSince, hne, hv]
    cases hsub : env.subscribe eventsFilter (some v) with
    | error e => simp [EventsHandler, hup, hps, hsub]
    | ok evts => simp [EventsHandler, hup, hps, hsub]
  · intro hne hv
    have hps : parseSince env.sinceHeader = .error .parseIntFail := by
      simp [parseSince, hne, hv]
    simp [EventsHandler, hup, hps]

/-- A wire environment whose steps all succeed with fixed encodings. -/
def wireOk : WireEnv :=
  ⟨fun _ => .ok (), fun _ _ => .ok [0], fun _ => .ok [1], fun _ => .ok ()⟩

/-- An events request with no `since` header. -/
def w5a : EventsEnv := ⟨.ok (), "", fun _ _ => .ok [], wireOk⟩

/-- An events request with `since: 42`. -/
def w5b : EventsEnv := ⟨.ok (), "42", fun _ _ => .ok [], wireOk⟩

/-- An events request with an unparseable `since` header. -/
def w5c : EventsEnv := ⟨.ok (), "xyz", fun _ _ => .ok [], wireOk⟩

theorem eventsHandler_since_witness :
    (EventsHandler w5a).subCalls = [none]
    ∧ (EventsHandler w5b).subCalls = [some 42]
    ∧ ((EventsHandler w5c).res = .error .parseIntFail ∧
      (EventsHandler w5c).subCalls = []) :=
  ⟨(eventsHandler_since w5a rfl).1 rfl,
   (eventsHandler_since w5b rfl).2.1 42 (by decide) (by decide),
   (eventsHandler_since w5c rfl).2.2 (by decide) (by decide)⟩

/-! ## C10 -/

/-- C10: the filter predicate the events endpoint passes to `Subscribe`
(bgs.go:119, embedded as `eventsFilter` and used by `EventsHandler`)
returns true for every event, so under the spec's delivery discipline
(`deliverFiltered`) a subscriber of this endpoint receives every
published event — no server-side filtering happens here. -/
theorem eventsFilter_passes_all :
    (∀ evt, eventsFilter evt = true)
    ∧ (∀ published, deliverFiltered eventsFilter published = published) := by
  constructor
  · intro evt
    rfl
  · intro published
    simp [deliverFiltered, eventsFilter]

/-! ## C6 -/

theorem eventsLoop_all_ok (w : WireEnv) (hb eb : RepoEvent → List Nat) :
    ∀ evts : List RepoEvent,
    (∀ x ∈ evts, w.nextWriter x = .ok () ∧ w.marshalHeader dataHeader x = .ok (hb x) ∧
      w.marshalEvent x = .ok (eb x) ∧ w.closeWriter x = .ok ()) →
    eventsLoop w evts = (.ok (), evts.map (fun x => ⟨[hb x, eb x], true⟩)) := by
  intro evts
  induction evts with
  | nil => intro _; rfl
  | cons e rest ih =>
    intro hall
    obtain ⟨h1, h2, h3, h4⟩ := hall e (List.mem_cons_self e rest)
    have hw : writeEvent w dataHeader e = .ok ⟨[hb e, eb e], true⟩ := by
      simp [writeEvent, h1, h2, h3, h4]
    have hrest := ih (fun x hx => hall x (List.mem_cons_of_mem e hx))
    simp [eventsLoop, hw, hrest]

theorem eventsLoop_stops (w : WireEnv) (hb eb : RepoEvent → List Nat) (err : Err) :
    ∀ (pre : List RepoEvent) (e : RepoEvent) (post : List RepoEvent),
    (∀ x ∈ pre, writeEvent w dataHeader x = .ok ⟨[hb x, eb x], true⟩) →
    writeEvent w dataHeader e = .error err →
    eventsLoop w (pre ++ e :: post) =
      (.error err, pre.map (fun x => ⟨[hb x, eb x], true⟩)) := by
  intro pre
  induction pre with
  | nil =>
    intro e post hpre he
    simp [eventsLoop, he]
  | cons x rest ih =>
    intro e post hpre he
    have hx := hpre x (List.mem_cons_self x rest)
    have hrest := ih e post (fun y hy => hpre y (List.mem_cons_of_mem x hy)) he
    simp [eventsLoop, hx, hrest]

/-- C6: once subscribed, each delivered event produces exactly one
binary frame holding two self-delimited encoded objects — first the
`data` header, then the event body — flush-closed before the next event
is handled; and a failure of any step (frame open, either encode/write,
flush-close) makes the handler return that error, emitting no frames for
later events, with the deferred cancel terminating that subscription. -/
theorem eventsHandler_framing (env : EventsEnv) (sinceVal : Option Int)
    (hb eb : RepoEvent → List Nat)
    (hup : env.upgrade = .ok ()) (hps : parseSince env.sinceHeader = .ok sinceVal) :
    (∀ evts, env.subscribe eventsFilter sinceVal = .ok evts →
      (∀ x ∈ evts, env.wire.nextWriter x = .ok () ∧
        env.wire.marshalHeader dataHeader x = .ok (hb x) ∧
        env.wire.marshalEvent x = .ok (eb x) ∧ env.wire.closeWriter x = .ok ()) →
      (EventsHandler env).frames = evts.map (fun x => ⟨[hb x, eb x], true⟩) ∧
      (EventsHandler env).res = .ok () ∧ (EventsHandler env).cancelled = true)
    ∧ (∀ pre e post err, env.subscribe eventsFilter sinceVal = .ok (pre ++ e :: post) →
      (∀ x ∈ pre, writeEvent env.wire dataHeader x = .ok ⟨[hb x, eb x], true⟩) →
      writeEvent env.wire dataHeader e = .error err →
      (EventsHandler env).res = .error err ∧
      (EventsHandler env).frames = pre.map (fun x => ⟨[hb x, eb x], true⟩) ∧
      (EventsHandler env).cancelled = true) := by
  constructor
  · intro evts hsub hall
    have hloop := eventsLoop_all_ok env.wire hb eb evts hall
    simp [EventsHandler, hup, hps, hsub, hloop]
  · intro pre e post err hsub hpre he
    have hloop := eventsLoop_stops env.wire hb eb err pre e post hpre he
    simp [EventsHandler, hup, hps, hsub, hloop]

/-- A first event on the witness stream. -/
def w6e1 : RepoEvent := ⟨1, "did:plc:alice", none⟩

/-- A second event on the witness stream. -/
def w6e2 : RepoEvent := ⟨2, "did:plc:alice", none⟩

/-- An events request delivering two events over a healthy wire. -/
def w6good : EventsEnv := ⟨.ok (), "", fun _ _ => .ok [w6e1, w6e2], wireOk⟩

/-- A wire whose frame open fails on the second event. -/
def wireBad : WireEnv :=
  ⟨fun e => if e.seq == 2 then .error (.writeFail "gone") else .ok (),
   fun _ _ => .ok [0], fun _ => .ok [1], fun _ => .ok ()⟩

/-- An events request whose wire dies on the second event. -/
def w6bad : EventsEnv := ⟨.ok (), "", fun _ _ => .ok [w6e1, w6e2], wireBad⟩

theorem eventsHandler_framing_witness :
    ((EventsHandler w6good).frames = [⟨[[0], [1]], true⟩, ⟨[[0], [1]], true⟩] ∧
      (EventsHandler w6good).res = .ok () ∧ (EventsHandler w6good).cancelled = true)
    ∧ ((EventsHandler w6bad).res = .error (.writeFail "gone") ∧
      (EventsHandler w6bad).frames = [⟨[[0], [1]], true⟩] ∧
      (EventsHandler w6bad).cancelled = true) :=
  ⟨(eventsHandler_framing w6good none (fun _ => [0]) (fun _ => [1]) rfl rfl).1
      [w6e1, w6e2] rfl (by decide),
   (eventsHandler_framing w6bad none (fun _ => [0]) (fun _ => [1]) rfl rfl).2
      [w6e1] w6e2 [] (.writeFail "gone") rfl (by decide) (by decide)⟩
